import Mathlib

/-!
Verification of the slack-job-monitor process supervisor.

The Python source (`slack_job_monitor/__main__.py` and
`slack_job_monitor/slack_wrapper.py`) is shallowly embedded below.
Times (seconds) are modelled as rationals, process exit codes as
integers, and the fallible parts of the code (float division, which
raises `ZeroDivisionError` in Python; `psutil` calls, which raise
`psutil.Error` for vanished processes) as `Except` computations.
The job loop `ProcessMonitor.run_jobs` is embedded as a function over a
trace of per-job events (the job finishes with an exit code and a final
sample table, a `KeyboardInterrupt` arrives while the job is running, or
an unexpected exception escapes), producing the final monitor state, the
list of `update_message` calls that actually executed, and how the loop
exited.
-/

namespace SlackJobMonitor

/-- `MonitorStatus` from `__main__.py` (the emoji labels are presentation
only and are dropped). -/
inductive MonitorStatus where
  | STARTED
  | RUNNING
  | COMPLETED
  | COMPLETED_WITH_ERRORS
  | INTERRUPTED
  | CRASHED
deriving DecidableEq, Repr

/-- Python exceptions relevant to the embedded code. -/
inductive PyError where
  | zeroDivisionError
  | psutilError
deriving DecidableEq, Repr

/-- `psutil._common.pcputimes`: the user/system CPU-time counters of one
process, as returned by `Process.cpu_times()`. -/
structure Pcputimes where
  user : ℚ
  system : ℚ
deriving DecidableEq, Repr

/-- `RateLimiter` from `slack_wrapper.py`: `period_sec` and `last_ok`. -/
structure RateLimiter where
  period_sec : ℚ
  last_ok : ℚ
deriving DecidableEq, Repr

/-- `RateLimiter.__init__(period_sec)`: `last_ok` starts at `0.0`. -/
def RateLimiter.init (period : ℚ) : RateLimiter :=
  { period_sec := period, last_ok := 0 }

/-- `RateLimiter.__call__` at time `now`: if `now - last_ok > period_sec`
then set `last_ok = now` and return `True`, else return `False`. -/
def RateLimiter.call (rl : RateLimiter) (now : ℚ) : Bool × RateLimiter :=
  if now - rl.last_ok > rl.period_sec then (true, { rl with last_ok := now })
  else (false, rl)

/-- The mutable statistics fields of `ProcessMonitor` (`__init__`,
lines 34-44): status, completed/failed counters and the cumulative
user/system/real times. -/
structure MonitorState where
  status : MonitorStatus
  completed : Nat
  failed : Nat
  user_time : ℚ
  system_time : ℚ
  real_time : ℚ
deriving DecidableEq, Repr

/-- `ProcessMonitor.__init__`: status `STARTED`, all counters and time
totals zero. -/
def MonitorState.init : MonitorState :=
  { status := .STARTED, completed := 0, failed := 0,
    user_time := 0, system_time := 0, real_time := 0 }

/-- Python float/int division: raises `ZeroDivisionError` on a zero
denominator, otherwise returns the quotient. -/
def pydiv (a b : ℚ) : Except PyError ℚ :=
  if b = 0 then .error .zeroDivisionError else .ok (a / b)

/-- The numeric content of the string built by
`ProcessMonitor.get_stats_str` (lines 69-78): the completed percentage
and the cpu percentage.  The human-readable formatting is dropped; the
two divisions are kept in source order (`completed / len(args)` first,
then `(user_time + system_time) / real_time`). -/
structure StatsStr where
  completed_pct : ℚ
  cpu_pct : ℚ
deriving DecidableEq, Repr

/-- `ProcessMonitor.get_stats_str` with `numArgs = len(self.args)`.
Line 70: `completed_pct = self.completed / len(self.args) * 100`;
line 71: `cpu_pct = (self.user_time + self.system_time) / self.real_time * 100`.
Either division raises `ZeroDivisionError` when its denominator is 0. -/
def get_stats_str (s : MonitorState) (numArgs : Nat) : Except PyError StatsStr := do
  let cp ← pydiv (s.completed : ℚ) (numArgs : ℚ)
  let cpu ← pydiv (s.user_time + s.system_time) s.real_time
  Except.ok { completed_pct := cp * 100, cpu_pct := cpu * 100 }

theorem get_stats_str_ok (s : MonitorState) (numArgs : Nat)
    (hn : numArgs ≠ 0) (hr : s.real_time ≠ 0) :
    get_stats_str s numArgs =
      .ok { completed_pct := (s.completed : ℚ) / (numArgs : ℚ) * 100,
            cpu_pct := (s.user_time + s.system_time) / s.real_time * 100 } := by
  have hnq : (numArgs : ℚ) ≠ 0 := by exact_mod_cast hn
  simp [get_stats_str, pydiv, hnq, hr, Bind.bind, Except.bind]

theorem get_stats_str_err_of_real_time_zero (s : MonitorState) (numArgs : Nat)
    (hr : s.real_time = 0) :
    get_stats_str s numArgs = .error .zeroDivisionError := by
  by_cases hn : (numArgs : ℚ) = 0 <;>
    simp [get_stats_str, pydiv, hn, hr, Bind.bind, Except.bind]

/-- C1 (counterexample): the claim says that when the accumulated wall
clock elapsed time is 0 the `cpuPercent` metric is reported as 0 with no
division error.  At the concrete state with `real_time = 0` (and one
job), `get_stats_str` instead raises `ZeroDivisionError`: the
computation is not total there and no value is reported at all. -/
theorem c1_counterexample :
    get_stats_str
      { status := .RUNNING, completed := 0, failed := 0,
        user_time := 0, system_time := 0, real_time := 0 } 1 =
      .error .zeroDivisionError := by
  rfl

/-- C1 (amended): `get_stats_str` contains no guard for
`wallClockElapsed == 0`.  When `real_time = 0` it raises
`ZeroDivisionError` (for any number of jobs), and it succeeds — with
`cpuPercent = (user + system) / real_time * 100` — exactly when
`real_time ≠ 0` and the job list is non-empty. -/
theorem c1_amended_no_guard (s : MonitorState) (numArgs : Nat) :
    (s.real_time = 0 → get_stats_str s numArgs = .error .zeroDivisionError) ∧
    (s.real_time ≠ 0 → numArgs ≠ 0 →
      get_stats_str s numArgs =
        .ok { completed_pct := (s.completed : ℚ) / (numArgs : ℚ) * 100,
              cpu_pct := (s.user_time + s.system_time) / s.real_time * 100 }) := by
  constructor
  · intro hr
    exact get_stats_str_err_of_real_time_zero s numArgs hr
  · intro hr hn
    exact get_stats_str_ok s numArgs hn hr

/-- Witness for C1 (amended) at concrete inputs: a state with
`real_time = 0` raises, and a state with `real_time = 2`,
`user_time = 1`, `system_time = 1` over 2 jobs reports 100% cpu. -/
theorem c1_amended_no_guard_witness :
    get_stats_str
      { status := .CRASHED, completed := 0, failed := 0,
        user_time := 0, system_time := 0, real_time := 0 } 3 =
        .error .zeroDivisionError ∧
    get_stats_str
      { status := .COMPLETED, completed := 2, failed := 0,
        user_time := 1, system_time := 1, real_time := 2 } 2 =
        .ok { completed_pct := 100, cpu_pct := 100 } := by
  constructor
  · exact (c1_amended_no_guard
      { status := .CRASHED, completed := 0, failed := 0,
        user_time := 0, system_time := 0, real_time := 0 } 3).1 rfl
  · have h := (c1_amended_no_guard
      { status := .COMPLETED, completed := 2, failed := 0,
        user_time := 1, system_time := 1, real_time := 2 } 2).2
      (by norm_num) (by norm_num)
    rw [h]
    norm_num

/-- C5: the notification gate (`RateLimiter.__call__`) returns `True`
and sets `last_ok = now` exactly when `now - last_ok > period_sec`, and
otherwise returns `False` leaving the state unchanged; consequently for
a fresh limiter with cooldown `C`, a first call at `t1` (past the
initial cooldown), a second within `C` seconds of it, and a third more
than `C` seconds after the first, yield `true`, `false`, `true`. -/
theorem RateLimiter.call_pos (rl : RateLimiter) (now : ℚ)
    (h : now - rl.last_ok > rl.period_sec) :
    rl.call now = (true, { rl with last_ok := now }) := by
  simp only [RateLimiter.call]
  rw [if_pos h]

theorem RateLimiter.call_neg (rl : RateLimiter) (now : ℚ)
    (h : ¬ now - rl.last_ok > rl.period_sec) :
    rl.call now = (false, rl) := by
  simp only [RateLimiter.call]
  rw [if_neg h]

theorem c5_rate_limiter (rl : RateLimiter) (now C t1 t2 t3 : ℚ)
    (h1 : t1 - 0 > C) (h2 : t2 - t1 ≤ C) (h3 : t3 - t1 > C) :
    (((rl.call now).1 = true ∧ ((rl.call now).2).last_ok = now) ↔
        now - rl.last_ok > rl.period_sec) ∧
    (¬ now - rl.last_ok > rl.period_sec →
        (rl.call now).1 = false ∧ (rl.call now).2 = rl) ∧
    ((RateLimiter.init C).call t1).1 = true ∧
    ((((RateLimiter.init C).call t1).2).call t2).1 = false ∧
    (((((RateLimiter.init C).call t1).2).call t2).2.call t3).1 = true := by
  have hc1 : ((RateLimiter.init C).call t1) =
      (true, { period_sec := C, last_ok := t1 }) :=
    RateLimiter.call_pos _ _ h1
  have hc2 : (({ period_sec := C, last_ok := t1 } : RateLimiter).call t2) =
      (false, { period_sec := C, last_ok := t1 }) :=
    RateLimiter.call_neg _ _ (by simpa using not_lt.mpr (by linarith : t2 - t1 ≤ C))
  have hc3 : (({ period_sec := C, last_ok := t1 } : RateLimiter).call t3) =
      (true, { period_sec := C, last_ok := t3 }) :=
    RateLimiter.call_pos _ _ (by simpa using h3)
  refine ⟨?_, ?_, ?_, ?_, ?_⟩
  · constructor
    · intro hb
      by_contra hcond
      rw [RateLimiter.call_neg rl now hcond] at hb
      exact Bool.false_ne_true hb.1
    · intro hcond
      rw [RateLimiter.call_pos rl now hcond]
      exact ⟨rfl, rfl⟩
  · intro hcond
    rw [RateLimiter.call_neg rl now hcond]
    exact ⟨rfl, rfl⟩
  · rw [hc1]
  · rw [hc1, hc2]
  · rw [hc1, hc2, hc3]

/-- Witness for C5: cooldown 4, calls at times 5, 7, 10. -/
theorem c5_rate_limiter_witness :
    ((RateLimiter.init 4).call 5).1 = true ∧
    ((((RateLimiter.init 4).call 5).2).call 7).1 = false ∧
    (((((RateLimiter.init 4).call 5).2).call 7).2.call 10).1 = true := by
  have h := c5_rate_limiter (RateLimiter.init 4) 0 4 5 7 10
    (by norm_num) (by norm_num) (by norm_num)
  exact ⟨h.2.2.1, h.2.2.2.1, h.2.2.2.2⟩

/-- One member of the process tree as enumerated at the start of a poll
tick (`itertools.chain((p,), p.children(recursive=True))`, line 95): by
the time `cpu_times()` is called, the process is either still alive
(with its current CPU counters) or has vanished. -/
inductive ProcObs where
  | alive (pid : Nat) (times : Pcputimes)
  | vanished (pid : Nat)
deriving DecidableEq, Repr

def ProcObs.pid : ProcObs → Nat
  | .alive p _ => p
  | .vanished p => p

def ProcObs.isAlive : ProcObs → Bool
  | .alive _ _ => true
  | .vanished _ => false

/-- `psutil.Process.cpu_times()`: returns the counters of a live
process and raises a `psutil.Error` for a process that no longer
exists. -/
def cpu_times : ProcObs → Except PyError Pcputimes
  | .alive _ t => .ok t
  | .vanished _ => .error .psutilError

/-- The `proc_stats` dictionary (line 89), keyed by process identity. -/
def PidTable := Nat → Option Pcputimes

def PidTable.set (t : PidTable) (pid : Nat) (v : Pcputimes) : PidTable :=
  fun q => if q = pid then some v else t q

/-- One iteration of the inner sampling loop (lines 96-101):
`try: proc_stats[pc] = pc.cpu_times() except psutil.Error: pass`. -/
def sampleStep (t : PidTable) (pc : ProcObs) : PidTable :=
  match cpu_times pc with
  | .ok v => t.set pc.pid v
  | .error _ => t

/-- One full poll tick over the enumerated process tree (lines 95-101). -/
def sampleTick (procs : List ProcObs) (t : PidTable) : PidTable :=
  procs.foldl sampleStep t

/-- C7: a tree member that exited between enumeration and the sample
call is silently omitted from the tick: the tick behaves exactly as if
the vanished members were not enumerated at all (so it never fails and
still records every live member), and a pid that never appears alive in
the tick keeps whatever table entry it had before. -/
theorem c7_sampling_miss (procs : List ProcObs) (t : PidTable) :
    sampleTick procs t = sampleTick (procs.filter ProcObs.isAlive) t ∧
    (∀ pid : Nat, (∀ pc ∈ procs, pc.isAlive = true → pc.pid ≠ pid) →
      sampleTick procs t pid = t pid) := by
  constructor
  · induction procs generalizing t with
    | nil => rfl
    | cons pc rest ih =>
      cases pc with
      | alive p v =>
        simp only [sampleTick, List.foldl_cons, List.filter_cons,
          ProcObs.isAlive, if_pos] at *
        exact ih (sampleStep t (.alive p v))
      | vanished p =>
        simp only [sampleTick, List.foldl_cons, List.filter_cons,
          ProcObs.isAlive, Bool.false_eq_true, if_false]
        have hstep : sampleStep t (.vanished p) = t := rfl
        rw [hstep]
        exact ih t
  · intro pid hnone
    induction procs generalizing t with
    | nil => rfl
    | cons pc rest ih =>
      cases pc with
      | alive p v =>
        have hp : p ≠ pid := hnone (.alive p v) (List.mem_cons_self _ _) rfl
        have hstep : sampleStep t (.alive p v) = t.set p v := rfl
        simp only [sampleTick, List.foldl_cons, hstep]
        have hrec := ih (t.set p v) (fun pc hm => hnone pc (List.mem_cons_of_mem _ hm))
        rw [show sampleTick rest (t.set p v) =
          (rest.foldl sampleStep (t.set p v)) from rfl] at hrec
        rw [hrec]
        simp [PidTable.set, Ne.symm hp]
      | vanished p =>
        have hstep : sampleStep t (.vanished p) = t := rfl
        simp only [sampleTick, List.foldl_cons, hstep]
        exact ih t (fun pc hm => hnone pc (List.mem_cons_of_mem _ hm))

/-- Witness for C7: a tick over one live process (pid 1) and one
vanished process (pid 5), starting from the empty table: the tick equals
the tick over the live member alone, and pid 5 stays unrecorded. -/
theorem c7_sampling_miss_witness :
    sampleTick [ProcObs.alive 1 { user := 2, system := 3 }, ProcObs.vanished 5]
        (fun _ => none) =
      sampleTick
        ([ProcObs.alive 1 { user := 2, system := 3 },
          ProcObs.vanished 5].filter ProcObs.isAlive) (fun _ => none) ∧
    sampleTick [ProcObs.alive 1 { user := 2, system := 3 }, ProcObs.vanished 5]
        (fun _ => none) 5 = none := by
  refine ⟨(c7_sampling_miss _ _).1, ?_⟩
  exact (c7_sampling_miss
    [ProcObs.alive 1 { user := 2, system := 3 }, ProcObs.vanished 5]
    (fun _ => none)).2 5 (by decide)

/-- The sleep interval of the poll loop (line 103):
`time.sleep(math.log10(time.time() - job_start + 1))`, as a function of
the elapsed wall time since the job started. -/
noncomputable def sleep_interval (elapsed : ℚ) : ℝ :=
  Real.logb 10 ((elapsed : ℝ) + 1)

/-- Modelled from the spec: the spec describes the sleep interval as
`max(0, log10(elapsed_seconds + 1))`; stated separately for comparison
with `sleep_interval`, which is taken from the source (no `max`). -/
noncomputable def sleep_interval_spec (elapsed : ℚ) : ℝ :=
  max 0 (Real.logb 10 ((elapsed : ℝ) + 1))

/-- C6: for every non-negative elapsed time the source's sleep interval
equals the spec's `max(0, log10(elapsed + 1))`, is non-negative, and is
monotonically non-decreasing in the elapsed time. -/
theorem c6_sleep_interval (e1 e2 : ℚ) (h0 : 0 ≤ e1) (h12 : e1 ≤ e2) :
    sleep_interval e1 = sleep_interval_spec e1 ∧
    0 ≤ sleep_interval e1 ∧
    sleep_interval e1 ≤ sleep_interval e2 := by
  have h0r : (0:ℝ) ≤ (e1:ℝ) := by exact_mod_cast h0
  have h1 : (1:ℝ) ≤ (e1:ℝ) + 1 := by linarith
  have hpos : (0:ℝ) < (e1:ℝ) + 1 := by linarith
  have hb : (1:ℝ) < 10 := by norm_num
  have hnn : 0 ≤ sleep_interval e1 := Real.logb_nonneg hb h1
  refine ⟨?_, hnn, ?_⟩
  · unfold sleep_interval sleep_interval_spec
    exact (max_eq_right hnn).symm
  · unfold sleep_interval
    apply Real.logb_le_logb_of_le hb hpos
    have h12r : (e1:ℝ) ≤ (e2:ℝ) := by exact_mod_cast h12
    linarith

/-- Witness for C6 at elapsed times 0 and 3. -/
theorem c6_sleep_interval_witness :
    sleep_interval 0 = sleep_interval_spec 0 ∧
    0 ≤ sleep_interval 0 ∧
    sleep_interval 0 ≤ sleep_interval 3 :=
  c6_sleep_interval 0 3 (by norm_num) (by norm_num)

/-- The observable outcome of one job that runs to completion
(lines 85-111): the exit code from `proc.wait()`, the final values of
the `proc_stats` dictionary (one `pcputimes` entry per sampled process),
the wall-clock elapsed time `time.time() - self.start` stored into
`real_time` at line 111, and the `time.time()` value seen by the rate
limiter at line 113. -/
structure JobSpec where
  returncode : Int
  samples : List Pcputimes
  elapsed : ℚ
  now : ℚ
deriving DecidableEq, Repr

/-- What happens at one iteration of the `for arg in self.args` loop:
the job finishes (lines 85-114), a `KeyboardInterrupt` is raised while
the job is running (caught at lines 115-118), or some other exception
escapes the loop (the `try` only catches `KeyboardInterrupt`). -/
inductive JobEvent where
  | finishes (job : JobSpec)
  | interrupt
  | crash
deriving DecidableEq, Repr

def JobEvent.isFinishes : JobEvent → Bool
  | .finishes _ => true
  | _ => false

/-- The per-job accumulator update, lines 106-111: increment
`completed`, increment `failed` when the exit code is non-zero, add the
summed user/system times of the final sample table, and overwrite
`real_time` with the current wall-clock elapsed time. -/
def stepFinish (s : MonitorState) (j : JobSpec) : MonitorState :=
  { s with
    completed := s.completed + 1
    failed := s.failed + (if j.returncode ≠ 0 then 1 else 0)
    user_time := s.user_time + (j.samples.map Pcputimes.user).sum
    system_time := s.system_time + (j.samples.map Pcputimes.system).sum
    real_time := j.elapsed }

/-- One `update_message` call that actually executed: the status at the
time of the call, the numeric content of the stats body, and whether the
call was guarded by the rate limiter (line 113) or unconditional. -/
structure Report where
  status : MonitorStatus
  body : Except PyError StatsStr
  gated : Bool

/-- How the `for` loop of `run_jobs` ended. -/
inductive LoopExit where
  | normal
  | interruptedBreak
  | crashed
deriving DecidableEq, Repr

/-- Result of the `for` loop: final accumulator state, rate-limiter
state, the reports that executed, how many child processes were
launched, whether `proc.terminate()` was called, and how the loop
ended. -/
structure LoopOut where
  state : MonitorState
  rl : RateLimiter
  reports : List Report
  launched : Nat
  terminated : Bool
  exitKind : LoopExit

/-- The `for arg in self.args` loop of `run_jobs` (lines 83-118), over
the trace of per-job events.  `numArgs = len(self.args)` (needed by
`get_stats_str` in the gated report).  A failing `get_stats_str` inside
the gated report (line 114) raises an exception the `try` does not
catch, so it exits the loop as a crash. -/
def runJobsLoop (numArgs : Nat) :
    List JobEvent → MonitorState → RateLimiter → LoopOut
  | [], s, rl =>
      { state := s, rl := rl, reports := [], launched := 0,
        terminated := false, exitKind := .normal }
  | .finishes j :: rest, s, rl =>
      let s' := stepFinish s j
      let rc := RateLimiter.call rl j.now
      if rc.1 then
        match get_stats_str s' numArgs with
        | .ok body =>
            let out := runJobsLoop numArgs rest s' rc.2
            { out with
              reports := { status := s'.status, body := Except.ok body,
                           gated := true } :: out.reports,
              launched := out.launched + 1 }
        | .error _ =>
            { state := s', rl := rc.2, reports := [], launched := 1,
              terminated := false, exitKind := .crashed }
      else
        let out := runJobsLoop numArgs rest s' rc.2
        { out with launched := out.launched + 1 }
  | .interrupt :: _, s, rl =>
      { state := { s with status := .INTERRUPTED }, rl := rl,
        reports := [], launched := 1, terminated := true,
        exitKind := .interruptedBreak }
  | .crash :: _, s, rl =>
      { state := s, rl := rl, reports := [], launched := 1,
        terminated := false, exitKind := .crashed }

/-- Result of `run_jobs`: as `LoopOut`, plus whether the final
`update_message(self.get_stats_str())` statement at line 126 was
reached, and whether an exception escaped `run_jobs`. -/
structure RunOut where
  state : MonitorState
  rl : RateLimiter
  reports : List Report
  launched : Nat
  terminated : Bool
  finalAttempted : Bool
  raised : Bool

/-- `ProcessMonitor.run_jobs` (lines 80-126): set status `RUNNING`, run
the loop; if an exception escaped the loop it escapes `run_jobs` too;
otherwise recompute `real_time` (line 120), classify the run when every
job completed (lines 121-125), and execute the unconditional final
`update_message(self.get_stats_str())` (line 126), whose stats
computation may itself raise. -/
def run_jobs (events : List JobEvent) (finalElapsed : ℚ)
    (s0 : MonitorState) (rl0 : RateLimiter) : RunOut :=
  let numArgs := events.length
  let out := runJobsLoop numArgs events { s0 with status := .RUNNING } rl0
  match out.exitKind with
  | .crashed =>
      { state := out.state, rl := out.rl, reports := out.reports,
        launched := out.launched, terminated := out.terminated,
        finalAttempted := false, raised := true }
  | _ =>
      let s1 := { out.state with real_time := finalElapsed }
      let s2 :=
        if s1.completed = numArgs then
          if s1.failed = 0 then { s1 with status := .COMPLETED }
          else { s1 with status := .COMPLETED_WITH_ERRORS }
        else s1
      match get_stats_str s2 numArgs with
      | .ok body =>
          { state := s2, rl := out.rl,
            reports := out.reports ++
              [{ status := s2.status, body := Except.ok body, gated := false }],
            launched := out.launched, terminated := out.terminated,
            finalAttempted := true, raised := false }
      | .error _ =>
          { state := s2, rl := out.rl, reports := out.reports,
            launched := out.launched, terminated := out.terminated,
            finalAttempted := true, raised := true }

/-- Result of `main`: final state, executed reports, whether a final
report statement was reached, whether `slack.ping_user()` ran, and
whether an exception escaped `main` itself. -/
structure MainOut where
  state : MonitorState
  reports : List Report
  finalAttempted : Bool
  pinged : Bool
  raised : Bool

/-- `main` (lines 150-161): run `run_jobs` on a fresh monitor; a bare
`except:` catches anything that escapes it, sets status `CRASHED` and
attempts `update_message(monitor.get_stats_str())` (line 159) — which
itself may raise, in which case the exception escapes `main` and
`ping_user` never runs. -/
def main_run (events : List JobEvent) (finalElapsed : ℚ)
    (rl0 : RateLimiter) : MainOut :=
  let r := run_jobs events finalElapsed MonitorState.init rl0
  if r.raised then
    let s' := { r.state with status := .CRASHED }
    match get_stats_str s' events.length with
    | .ok body =>
        { state := s',
          reports := r.reports ++
            [{ status := MonitorStatus.CRASHED, body := Except.ok body,
               gated := false }],
          finalAttempted := true, pinged := true, raised := false }
    | .error _ =>
        { state := s', reports := r.reports, finalAttempted := true,
          pinged := false, raised := true }
  else
    { state := r.state, reports := r.reports,
      finalAttempted := r.finalAttempted, pinged := true, raised := false }

/-- Sequencing of loop results: run `f` from where `o1` left off when
`o1` finished its events normally, otherwise stop with `o1` (used to
state how `runJobsLoop` splits over an appended event list). -/
def LoopOut.seq (o1 : LoopOut) (f : MonitorState → RateLimiter → LoopOut) :
    LoopOut :=
  match o1.exitKind with
  | .normal =>
      let o2 := f o1.state o1.rl
      { state := o2.state, rl := o2.rl,
        reports := o1.reports ++ o2.reports,
        launched := o1.launched + o2.launched,
        terminated := o1.terminated || o2.terminated,
        exitKind := o2.exitKind }
  | _ => o1

theorem runJobsLoop_append (n : Nat) (l1 l2 : List JobEvent)
    (s : MonitorState) (rl : RateLimiter) :
    runJobsLoop n (l1 ++ l2) s rl =
      (runJobsLoop n l1 s rl).seq (fun s' rl' => runJobsLoop n l2 s' rl') := by
  induction l1 generalizing s rl with
  | nil =>
    show runJobsLoop n l2 s rl = LoopOut.seq _ _
    simp only [runJobsLoop, LoopOut.seq]
    simp
  | cons e rest ih =>
    cases e with
    | finishes j =>
      show runJobsLoop n (.finishes j :: (rest ++ l2)) s rl = _
      simp only [runJobsLoop]
      by_cases hall : (RateLimiter.call rl j.now).1 = true
      · rw [if_pos hall, if_pos hall]
        cases hst : get_stats_str (stepFinish s j) n with
        | ok body =>
          simp only [hst, ih]
          cases hek : (runJobsLoop n rest (stepFinish s j)
              (RateLimiter.call rl j.now).2).exitKind <;>
            (simp only [LoopOut.seq, hek];
             try simp [hek, List.cons_append, Nat.add_right_comm])
        | error err =>
          simp only [hst, LoopOut.seq]
      · rw [if_neg hall, if_neg hall]
        simp only [ih]
        cases hek : (runJobsLoop n rest (stepFinish s j)
            (RateLimiter.call rl j.now).2).exitKind <;>
          (simp only [LoopOut.seq, hek];
           try simp [hek, Nat.add_right_comm])
    | interrupt =>
      show runJobsLoop n (.interrupt :: (rest ++ l2)) s rl = _
      simp only [runJobsLoop, LoopOut.seq]
    | crash =>
      show runJobsLoop n (.crash :: (rest ++ l2)) s rl = _
      simp only [runJobsLoop, LoopOut.seq]

theorem runJobsLoop_finishes (n : Nat) (jobs : List JobSpec)
    (s : MonitorState) (rl : RateLimiter)
    (hn : n ≠ 0) (hcl : ∀ j ∈ jobs, j.elapsed ≠ 0) :
    (runJobsLoop n (jobs.map JobEvent.finishes) s rl).exitKind = .normal ∧
    (runJobsLoop n (jobs.map JobEvent.finishes) s rl).state.status = s.status ∧
    (runJobsLoop n (jobs.map JobEvent.finishes) s rl).state.completed =
      s.completed + jobs.length ∧
    (runJobsLoop n (jobs.map JobEvent.finishes) s rl).state.user_time =
      s.user_time +
        (jobs.map (fun j => (j.samples.map Pcputimes.user).sum)).sum ∧
    (runJobsLoop n (jobs.map JobEvent.finishes) s rl).state.system_time =
      s.system_time +
        (jobs.map (fun j => (j.samples.map Pcputimes.system).sum)).sum ∧
    (runJobsLoop n (jobs.map JobEvent.finishes) s rl).launched = jobs.length ∧
    (runJobsLoop n (jobs.map JobEvent.finishes) s rl).terminated = false := by
  induction jobs generalizing s rl with
  | nil =>
    simp [runJobsLoop]
  | cons j rest ih =>
    have hj : j.elapsed ≠ 0 := hcl j (List.mem_cons_self _ _)
    have hrest : ∀ j' ∈ rest, j'.elapsed ≠ 0 :=
      fun j' hm => hcl j' (List.mem_cons_of_mem _ hm)
    have hstats : get_stats_str (stepFinish s j) n =
        .ok { completed_pct :=
                ((stepFinish s j).completed : ℚ) / (n : ℚ) * 100,
              cpu_pct := ((stepFinish s j).user_time +
                (stepFinish s j).system_time) / (stepFinish s j).real_time
                  * 100 } :=
      get_stats_str_ok _ n hn (by simpa [stepFinish] using hj)
    have ihr := ih (stepFinish s j) ((RateLimiter.call rl j.now).2) hrest
    simp only [List.map_cons, runJobsLoop]
    by_cases hall : (RateLimiter.call rl j.now).1 = true
    · rw [if_pos hall]
      simp only [hstats]
      refine ⟨ihr.1, ?_, ?_, ?_, ?_, ?_, ihr.2.2.2.2.2.2⟩
      · rw [ihr.2.1]; rfl
      · rw [ihr.2.2.1]; simp [stepFinish]; ring
      · rw [ihr.2.2.2.1]; simp [stepFinish]; ring
      · rw [ihr.2.2.2.2.1]; simp [stepFinish]; ring
      · simp [ihr.2.2.2.2.2.1]
    · rw [if_neg hall]
      refine ⟨ihr.1, ?_, ?_, ?_, ?_, ?_, ihr.2.2.2.2.2.2⟩
      · rw [ihr.2.1]; rfl
      · rw [ihr.2.2.1]; simp [stepFinish]; ring
      · rw [ihr.2.2.2.1]; simp [stepFinish]; ring
      · rw [ihr.2.2.2.2.1]; simp [stepFinish]; ring
      · simp [ihr.2.2.2.2.2.1]

/-- `run_jobs` only ever rewrites `status` and `real_time` after the
loop: the counters and the cumulative CPU times of its final state are
exactly those of the loop's final state. -/
theorem run_jobs_state_counters (events : List JobEvent) (fe : ℚ)
    (s0 : MonitorState) (rl0 : RateLimiter) :
    (run_jobs events fe s0 rl0).state.completed =
      (runJobsLoop events.length events { s0 with status := .RUNNING }
        rl0).state.completed ∧
    (run_jobs events fe s0 rl0).state.failed =
      (runJobsLoop events.length events { s0 with status := .RUNNING }
        rl0).state.failed ∧
    (run_jobs events fe s0 rl0).state.user_time =
      (runJobsLoop events.length events { s0 with status := .RUNNING }
        rl0).state.user_time ∧
    (run_jobs events fe s0 rl0).state.system_time =
      (runJobsLoop events.length events { s0 with status := .RUNNING }
        rl0).state.system_time := by
  simp only [run_jobs]
  cases hek : (runJobsLoop events.length events { s0 with status := .RUNNING }
      rl0).exitKind
  · simp only []
    split_ifs <;> cases hst : get_stats_str _ events.length <;> simp
  · simp only []
    split_ifs <;> cases hst : get_stats_str _ events.length <;> simp
  · simp

/-- C3: when the job loop ends normally, having completed every job,
the final status is `COMPLETED` when `failed = 0` and
`COMPLETED_WITH_ERRORS` otherwise. -/
theorem c3_normal_completion (jobs : List JobSpec) (fe : ℚ)
    (rl0 : RateLimiter) (hcl : ∀ j ∈ jobs, j.elapsed ≠ 0) :
    (run_jobs (jobs.map JobEvent.finishes) fe MonitorState.init
        rl0).state.completed = jobs.length ∧
    ((run_jobs (jobs.map JobEvent.finishes) fe MonitorState.init
        rl0).state.failed = 0 →
      (run_jobs (jobs.map JobEvent.finishes) fe MonitorState.init
        rl0).state.status = .COMPLETED) ∧
    ((run_jobs (jobs.map JobEvent.finishes) fe MonitorState.init
        rl0).state.failed ≠ 0 →
      (run_jobs (jobs.map JobEvent.finishes) fe MonitorState.init
        rl0).state.status = .COMPLETED_WITH_ERRORS) := by
  rcases List.eq_nil_or_concat jobs with hnil | ⟨_, _, hconcat⟩
  · subst hnil
    refine ⟨?_, ?_, ?_⟩ <;>
      simp [run_jobs, runJobsLoop, get_stats_str, pydiv, MonitorState.init,
        Bind.bind, Except.bind]
  · have hn : (jobs.map JobEvent.finishes).length ≠ 0 := by
      subst hconcat; simp
    have hft := runJobsLoop_finishes (jobs.map JobEvent.finishes).length jobs
      { MonitorState.init with status := .RUNNING } rl0 hn hcl
    have hcomp : (runJobsLoop (jobs.map JobEvent.finishes).length
        (jobs.map JobEvent.finishes) { MonitorState.init with status := .RUNNING }
        rl0).state.completed = jobs.length := by
      rw [hft.2.2.1]
      simp [MonitorState.init]
    simp only [run_jobs, hft.1]
    have hlen : (jobs.map JobEvent.finishes).length = jobs.length := by simp
    constructor
    · cases hst : get_stats_str _ (jobs.map JobEvent.finishes).length <;>
        split_ifs <;> simp_all
    · constructor <;> intro hf <;>
        [skip; skip] <;>
        cases hst : get_stats_str _ (jobs.map JobEvent.finishes).length <;>
        split_ifs <;> simp_all

/-- C9: running the same multiset of (already fully sampled) jobs in a
different order yields the same final `user_time` and `system_time`
totals. -/
theorem c9_fold_commutative (jobs1 jobs2 : List JobSpec)
    (fe1 fe2 : ℚ) (rl1 rl2 : RateLimiter)
    (hperm : List.Perm jobs1 jobs2)
    (hcl : ∀ j ∈ jobs1, j.elapsed ≠ 0) :
    (run_jobs (jobs1.map JobEvent.finishes) fe1 MonitorState.init
        rl1).state.user_time =
      (run_jobs (jobs2.map JobEvent.finishes) fe2 MonitorState.init
        rl2).state.user_time ∧
    (run_jobs (jobs1.map JobEvent.finishes) fe1 MonitorState.init
        rl1).state.system_time =
      (run_jobs (jobs2.map JobEvent.finishes) fe2 MonitorState.init
        rl2).state.system_time := by
  have hcl2 : ∀ j ∈ jobs2, j.elapsed ≠ 0 := fun j hm =>
    hcl j (hperm.mem_iff.mpr hm)
  have key : ∀ (jobs : List JobSpec) (fe : ℚ) (rl : RateLimiter),
      (∀ j ∈ jobs, j.elapsed ≠ 0) →
      (run_jobs (jobs.map JobEvent.finishes) fe MonitorState.init
          rl).state.user_time =
        (jobs.map (fun j => (j.samples.map Pcputimes.user).sum)).sum ∧
      (run_jobs (jobs.map JobEvent.finishes) fe MonitorState.init
          rl).state.system_time =
        (jobs.map (fun j => (j.samples.map Pcputimes.system).sum)).sum := by
    intro jobs fe rl hclean
    rcases List.eq_nil_or_concat jobs with hnil | ⟨_, _, hconcat⟩
    · subst hnil
      constructor <;>
        simp [run_jobs, runJobsLoop, get_stats_str, pydiv, MonitorState.init,
          Bind.bind, Except.bind]
    · have hn : (jobs.map JobEvent.finishes).length ≠ 0 := by
        subst hconcat; simp
      have hft := runJobsLoop_finishes (jobs.map JobEvent.finishes).length jobs
        { MonitorState.init with status := .RUNNING } rl hn hclean
      have hproj := run_jobs_state_counters (jobs.map JobEvent.finishes) fe
        MonitorState.init rl
      constructor
      · rw [hproj.2.2.1, hft.2.2.2.1]
        simp [MonitorState.init]
      · rw [hproj.2.2.2, hft.2.2.2.2.1]
        simp [MonitorState.init]
  have k1 := key jobs1 fe1 rl1 hcl
  have k2 := key jobs2 fe2 rl2 hcl2
  constructor
  · rw [k1.1, k2.1]
    exact (hperm.map (fun j => (j.samples.map Pcputimes.user).sum)).sum_eq
  · rw [k1.2, k2.2]
    exact (hperm.map (fun j => (j.samples.map Pcputimes.system).sum)).sum_eq

/-- C2: if a `KeyboardInterrupt` arrives while a job is running — after
`pre` jobs finished cleanly, with any further `rest` of the job list
still pending — then the current child is terminated, the jobs in
`rest` are never launched (`launched = pre.length + 1`), `completed`
stays at `pre.length`, the run's status is `INTERRUPTED` and is never
overwritten afterwards, and the final (ungated) report carries status
`INTERRUPTED`. -/
theorem c2_interrupt (pre : List JobSpec) (rest : List JobEvent)
    (fe : ℚ) (rl0 : RateLimiter)
    (hcl : ∀ j ∈ pre, j.elapsed ≠ 0) (hfe : fe ≠ 0) :
    (run_jobs (pre.map JobEvent.finishes ++ .interrupt :: rest) fe
        MonitorState.init rl0).state.status = .INTERRUPTED ∧
    (run_jobs (pre.map JobEvent.finishes ++ .interrupt :: rest) fe
        MonitorState.init rl0).terminated = true ∧
    (run_jobs (pre.map JobEvent.finishes ++ .interrupt :: rest) fe
        MonitorState.init rl0).launched = pre.length + 1 ∧
    (run_jobs (pre.map JobEvent.finishes ++ .interrupt :: rest) fe
        MonitorState.init rl0).state.completed = pre.length ∧
    (∃ rep, (run_jobs (pre.map JobEvent.finishes ++ .interrupt :: rest) fe
        MonitorState.init rl0).reports.getLast? = some rep ∧
      rep.status = .INTERRUPTED ∧ rep.gated = false) := by
  set ev : List JobEvent := pre.map JobEvent.finishes ++ .interrupt :: rest
    with hev
  have hn : ev.length ≠ 0 := by simp [hev]
  have hft := runJobsLoop_finishes ev.length pre
    { MonitorState.init with status := .RUNNING } rl0 hn hcl
  set o1 := runJobsLoop ev.length (pre.map JobEvent.finishes)
    { MonitorState.init with status := .RUNNING } rl0 with ho1
  have h2 : ∀ m : Nat,
      runJobsLoop m (JobEvent.interrupt :: rest) o1.state o1.rl =
      { state := { o1.state with status := .INTERRUPTED }, rl := o1.rl,
        reports := [], launched := 1, terminated := true,
        exitKind := .interruptedBreak } := fun m => rfl
  have hloop : runJobsLoop ev.length ev
      { MonitorState.init with status := .RUNNING } rl0 =
      { state := { o1.state with status := .INTERRUPTED }, rl := o1.rl,
        reports := o1.reports, launched := o1.launched + 1,
        terminated := true, exitKind := .interruptedBreak } := by
    rw [hev, runJobsLoop_append, ← ho1]
    simp [LoopOut.seq, hft.1, h2, hft.2.2.2.2.2.2]
  have hcomp : o1.state.completed = pre.length := by
    rw [hft.2.2.1]; simp [MonitorState.init]
  have hne : o1.state.completed ≠ ev.length := by
    rw [hcomp]; simp [hev]
  have hstats : get_stats_str
      { o1.state with status := .INTERRUPTED, real_time := fe } ev.length =
      .ok { completed_pct :=
              (o1.state.completed : ℚ) / (ev.length : ℚ) * 100,
            cpu_pct := (o1.state.user_time + o1.state.system_time) / fe
              * 100 } :=
    get_stats_str_ok _ _ hn hfe
  have hlaunch := hft.2.2.2.2.2.1
  have hrun : run_jobs ev fe MonitorState.init rl0 =
      { state := { o1.state with status := .INTERRUPTED, real_time := fe },
        rl := o1.rl,
        reports := o1.reports ++
          [{ status := MonitorStatus.INTERRUPTED,
             body := Except.ok
               { completed_pct :=
                   (o1.state.completed : ℚ) / (ev.length : ℚ) * 100,
                 cpu_pct := (o1.state.user_time + o1.state.system_time) / fe
                   * 100 },
             gated := false }],
        launched := o1.launched + 1, terminated := true,
        finalAttempted := true, raised := false } := by
    simp only [run_jobs, hloop]
    simp only [if_neg hne]
    simp only [hstats]
  refine ⟨?_, ?_, ?_, ?_, ?_⟩
  · rw [hrun]
  · rw [hrun]
  · rw [hrun, hlaunch]
  · rw [hrun]; simpa using hcomp
  · rw [hrun]
    exact ⟨_, List.getLast?_concat _, rfl, rfl⟩

/-- Witness for C2: the single-job list whose job is interrupted while
running — final status `INTERRUPTED`, child terminated, `completed = 0`. -/
theorem c2_interrupt_witness :
    (run_jobs [JobEvent.interrupt] 1 MonitorState.init
        (RateLimiter.init 4)).state.status = .INTERRUPTED ∧
    (run_jobs [JobEvent.interrupt] 1 MonitorState.init
        (RateLimiter.init 4)).terminated = true ∧
    (run_jobs [JobEvent.interrupt] 1 MonitorState.init
        (RateLimiter.init 4)).state.completed = 0 := by
  have h := c2_interrupt [] [] 1 (RateLimiter.init 4)
    (by simp) (by norm_num)
  simpa using ⟨h.1, h.2.1, h.2.2.2.1⟩

/-- Witness for C3: jobs exiting with codes 0 and 1 — status
`COMPLETED_WITH_ERRORS`, `completed = 2`, `failed = 1`. -/
theorem c3_normal_completion_witness :
    (run_jobs
        [JobEvent.finishes { returncode := 0, samples := [], elapsed := 1, now := 1 },
         JobEvent.finishes { returncode := 1, samples := [], elapsed := 2, now := 2 }]
        3 MonitorState.init (RateLimiter.init 4)).state.completed = 2 ∧
    (run_jobs
        [JobEvent.finishes { returncode := 0, samples := [], elapsed := 1, now := 1 },
         JobEvent.finishes { returncode := 1, samples := [], elapsed := 2, now := 2 }]
        3 MonitorState.init (RateLimiter.init 4)).state.failed = 1 ∧
    (run_jobs
        [JobEvent.finishes { returncode := 0, samples := [], elapsed := 1, now := 1 },
         JobEvent.finishes { returncode := 1, samples := [], elapsed := 2, now := 2 }]
        3 MonitorState.init (RateLimiter.init 4)).state.status =
      .COMPLETED_WITH_ERRORS := by
  have h := c3_normal_completion
    [{ returncode := 0, samples := [], elapsed := 1, now := 1 },
     { returncode := 1, samples := [], elapsed := 2, now := 2 }]
    3 (RateLimiter.init 4) (by norm_num)
  simp only [List.map_cons, List.map_nil] at h
  have hfail : (run_jobs
      [JobEvent.finishes { returncode := 0, samples := [], elapsed := 1, now := 1 },
       JobEvent.finishes { returncode := 1, samples := [], elapsed := 2, now := 2 }]
      3 MonitorState.init (RateLimiter.init 4)).state.failed = 1 := by
    norm_num [run_jobs, runJobsLoop, stepFinish, RateLimiter.call,
      RateLimiter.init, get_stats_str, pydiv, MonitorState.init,
      Bind.bind, Except.bind]
  exact ⟨by simpa using h.1, hfail, h.2.2 (by rw [hfail]; norm_num)⟩

/-- Witness for C9: two concrete jobs run in both orders yield the same
cumulative user/system totals. -/
theorem c9_fold_commutative_witness :
    (run_jobs
        [JobEvent.finishes
          { returncode := 0, samples := [{ user := 1, system := 2 }],
            elapsed := 1, now := 1 },
         JobEvent.finishes
          { returncode := 0, samples := [{ user := 3, system := 5 }],
            elapsed := 2, now := 2 }]
        3 MonitorState.init (RateLimiter.init 4)).state.user_time =
      (run_jobs
        [JobEvent.finishes
          { returncode := 0, samples := [{ user := 3, system := 5 }],
            elapsed := 2, now := 2 },
         JobEvent.finishes
          { returncode := 0, samples := [{ user := 1, system := 2 }],
            elapsed := 1, now := 1 }]
        4 MonitorState.init (RateLimiter.init 7)).state.user_time ∧
    (run_jobs
        [JobEvent.finishes
          { returncode := 0, samples := [{ user := 1, system := 2 }],
            elapsed := 1, now := 1 },
         JobEvent.finishes
          { returncode := 0, samples := [{ user := 3, system := 5 }],
            elapsed := 2, now := 2 }]
        3 MonitorState.init (RateLimiter.init 4)).state.system_time =
      (run_jobs
        [JobEvent.finishes
          { returncode := 0, samples := [{ user := 3, system := 5 }],
            elapsed := 2, now := 2 },
         JobEvent.finishes
          { returncode := 0, samples := [{ user := 1, system := 2 }],
            elapsed := 1, now := 1 }]
        4 MonitorState.init (RateLimiter.init 7)).state.system_time :=
  c9_fold_commutative
    [{ returncode := 0, samples := [{ user := 1, system := 2 }],
       elapsed := 1, now := 1 },
     { returncode := 0, samples := [{ user := 3, system := 5 }],
       elapsed := 2, now := 2 }]
    [{ returncode := 0, samples := [{ user := 3, system := 5 }],
       elapsed := 2, now := 2 },
     { returncode := 0, samples := [{ user := 1, system := 2 }],
       elapsed := 1, now := 1 }]
    3 4 (RateLimiter.init 4) (RateLimiter.init 7)
    (List.Perm.swap _ _ _) (by norm_num)

/-- The accumulator state at loop entry (line 81: `self.status =
MonitorStatus.RUNNING` on a freshly initialised monitor). -/
def runningInit : MonitorState :=
  { MonitorState.init with status := .RUNNING }

/-- CPU-time samples are non-negative (true of every real
`cpu_times()` reading; stated as a hypothesis on the event trace). -/
def JobEvent.samplesNonneg : JobEvent → Prop
  | .finishes j => ∀ p ∈ j.samples, 0 ≤ p.user ∧ 0 ≤ p.system
  | _ => True

theorem runJobsLoop_completed_le (n : Nat) (l : List JobEvent)
    (s : MonitorState) (rl : RateLimiter) :
    (runJobsLoop n l s rl).state.completed ≤ s.completed + l.length := by
  induction l generalizing s rl with
  | nil => simp [runJobsLoop]
  | cons e rest ih =>
    cases e with
    | finishes j =>
      have hstep : (stepFinish s j).completed = s.completed + 1 := rfl
      have h1 := ih (stepFinish s j) (RateLimiter.call rl j.now).2
      rw [hstep] at h1
      simp only [runJobsLoop]
      by_cases hall : (RateLimiter.call rl j.now).1 = true
      · rw [if_pos hall]
        cases hst : get_stats_str (stepFinish s j) n with
        | ok body =>
          simp only [hst]
          simpa using le_trans h1 (by omega)
        | error err =>
          simp only [hst]
          simp [hstep]
      · rw [if_neg hall]
        simpa using le_trans h1 (by omega)
    | interrupt =>
      simp [runJobsLoop]
    | crash =>
      simp [runJobsLoop]

theorem runJobsLoop_failed_le (n : Nat) (l : List JobEvent)
    (s : MonitorState) (rl : RateLimiter) (h : s.failed ≤ s.completed) :
    (runJobsLoop n l s rl).state.failed ≤
      (runJobsLoop n l s rl).state.completed := by
  induction l generalizing s rl with
  | nil => simpa [runJobsLoop] using h
  | cons e rest ih =>
    cases e with
    | finishes j =>
      have hstep : (stepFinish s j).failed ≤ (stepFinish s j).completed := by
        simp only [stepFinish]
        split_ifs <;> omega
      have h1 := ih (stepFinish s j) (RateLimiter.call rl j.now).2 hstep
      simp only [runJobsLoop]
      by_cases hall : (RateLimiter.call rl j.now).1 = true
      · rw [if_pos hall]
        cases hst : get_stats_str (stepFinish s j) n with
        | ok body => simpa using h1
        | error err => simpa using hstep
      · rw [if_neg hall]
        simpa using h1
    | interrupt => simpa [runJobsLoop] using h
    | crash => simpa [runJobsLoop] using h

theorem runJobsLoop_times_mono (n : Nat) (l : List JobEvent)
    (s : MonitorState) (rl : RateLimiter)
    (h : ∀ e ∈ l, e.samplesNonneg) :
    s.user_time ≤ (runJobsLoop n l s rl).state.user_time ∧
    s.system_time ≤ (runJobsLoop n l s rl).state.system_time := by
  induction l generalizing s rl with
  | nil => simp [runJobsLoop]
  | cons e rest ih =>
    cases e with
    | finishes j =>
      have hj : ∀ p ∈ j.samples, 0 ≤ p.user ∧ 0 ≤ p.system :=
        h (.finishes j) (List.mem_cons_self _ _)
      have hu : 0 ≤ (j.samples.map Pcputimes.user).sum := by
        apply List.sum_nonneg
        intro x hx
        obtain ⟨p, hp, rfl⟩ := List.mem_map.mp hx
        exact (hj p hp).1
      have hv : 0 ≤ (j.samples.map Pcputimes.system).sum := by
        apply List.sum_nonneg
        intro x hx
        obtain ⟨p, hp, rfl⟩ := List.mem_map.mp hx
        exact (hj p hp).2
      have hstep : s.user_time ≤ (stepFinish s j).user_time ∧
          s.system_time ≤ (stepFinish s j).system_time := by
        constructor <;> simp [stepFinish] <;> linarith
      have h1 := ih (stepFinish s j) (RateLimiter.call rl j.now).2
        (fun e he => h e (List.mem_cons_of_mem _ he))
      simp only [runJobsLoop]
      by_cases hall : (RateLimiter.call rl j.now).1 = true
      · rw [if_pos hall]
        cases hst : get_stats_str (stepFinish s j) n with
        | ok body =>
          simp only [hst]
          exact ⟨by simpa using le_trans hstep.1 h1.1,
                 by simpa using le_trans hstep.2 h1.2⟩
        | error err =>
          simp only [hst]
          exact ⟨by simpa using hstep.1, by simpa using hstep.2⟩
      · rw [if_neg hall]
        exact ⟨by simpa using le_trans hstep.1 h1.1,
               by simpa using le_trans hstep.2 h1.2⟩
    | interrupt => simp [runJobsLoop]
    | crash => simp [runJobsLoop]

/-- C4: at every point of the run (after any prefix of `k` events) the
accumulator satisfies `completed ≤ len(jobList)` and
`failed ≤ completed`; the cumulative `user_time`/`system_time` never
decrease from one prefix to the next (given non-negative samples); and
each per-job accumulator step increments `completed` by exactly 1 and
`failed` by 1 exactly when the exit code is non-zero. -/
theorem c4_invariants (events : List JobEvent) (k : Nat)
    (rl0 : RateLimiter) (s : MonitorState) (j : JobSpec)
    (hs : ∀ e ∈ events, e.samplesNonneg) :
    (runJobsLoop events.length (events.take k) runningInit
        rl0).state.completed ≤ events.length ∧
    (runJobsLoop events.length (events.take k) runningInit
        rl0).state.failed ≤
      (runJobsLoop events.length (events.take k) runningInit
        rl0).state.completed ∧
    (runJobsLoop events.length (events.take k) runningInit
        rl0).state.user_time ≤
      (runJobsLoop events.length (events.take (k + 1)) runningInit
        rl0).state.user_time ∧
    (runJobsLoop events.length (events.take k) runningInit
        rl0).state.system_time ≤
      (runJobsLoop events.length (events.take (k + 1)) runningInit
        rl0).state.system_time ∧
    (stepFinish s j).completed = s.completed + 1 ∧
    (j.returncode ≠ 0 → (stepFinish s j).failed = s.failed + 1) ∧
    (j.returncode = 0 → (stepFinish s j).failed = s.failed) := by
  have hmono : (runJobsLoop events.length (events.take k) runningInit
        rl0).state.user_time ≤
      (runJobsLoop events.length (events.take (k + 1)) runningInit
        rl0).state.user_time ∧
      (runJobsLoop events.length (events.take k) runningInit
        rl0).state.system_time ≤
      (runJobsLoop events.length (events.take (k + 1)) runningInit
        rl0).state.system_time := by
    rw [List.take_succ, runJobsLoop_append]
    cases hek : (runJobsLoop events.length (events.take k) runningInit
        rl0).exitKind with
    | normal =>
      simp only [LoopOut.seq, hek]
      apply runJobsLoop_times_mono
      intro e he
      cases hg : events[k]? with
      | none => rw [hg] at he; simp at he
      | some a =>
        rw [hg] at he
        simp at he
        subst he
        exact hs _ (List.getElem?_mem hg)
    | interruptedBreak => simp only [LoopOut.seq, hek]; exact ⟨le_refl _, le_refl _⟩
    | crashed => simp only [LoopOut.seq, hek]; exact ⟨le_refl _, le_refl _⟩
  refine ⟨?_, ?_, hmono.1, hmono.2, rfl, ?_, ?_⟩
  · have h1 := runJobsLoop_completed_le events.length (events.take k)
      runningInit rl0
    have h2 : (events.take k).length ≤ events.length := by
      simp [List.length_take]
    have h0 : runningInit.completed = 0 := rfl
    omega
  · exact runJobsLoop_failed_le events.length (events.take k) runningInit rl0
      (by simp [runningInit, MonitorState.init])
  · intro hrc
    simp [stepFinish, hrc]
  · intro hrc
    simp [stepFinish, hrc]

/-- Witness for C4: a one-event trace with a non-negative sample, prefix
`k = 0`, and a concrete per-job step. -/
theorem c4_invariants_witness :
    (runJobsLoop 1
        ([JobEvent.finishes
            { returncode := 1, samples := [{ user := 1, system := 2 }],
              elapsed := 2, now := 3 }].take 0) runningInit
        (RateLimiter.init 4)).state.completed ≤ 1 ∧
    (runJobsLoop 1
        ([JobEvent.finishes
            { returncode := 1, samples := [{ user := 1, system := 2 }],
              elapsed := 2, now := 3 }].take 0) runningInit
        (RateLimiter.init 4)).state.user_time ≤
      (runJobsLoop 1
        ([JobEvent.finishes
            { returncode := 1, samples := [{ user := 1, system := 2 }],
              elapsed := 2, now := 3 }].take 1) runningInit
        (RateLimiter.init 4)).state.user_time ∧
    (stepFinish MonitorState.init
        { returncode := 1, samples := [], elapsed := 1, now := 1 }).completed =
      MonitorState.init.completed + 1 ∧
    (stepFinish MonitorState.init
        { returncode := 1, samples := [], elapsed := 1, now := 1 }).failed =
      MonitorState.init.failed + 1 := by
  have h := c4_invariants
    [JobEvent.finishes
      { returncode := 1, samples := [{ user := 1, system := 2 }],
        elapsed := 2, now := 3 }]
    0 (RateLimiter.init 4) MonitorState.init
    { returncode := 1, samples := [], elapsed := 1, now := 1 }
    (by
      intro e he
      simp at he
      subst he
      intro p hp
      simp at hp
      subst hp
      norm_num)
  have hlen : ([JobEvent.finishes
      { returncode := 1, samples := [{ user := 1, system := 2 }],
        elapsed := 2, now := 3 }] : List JobEvent).length = 1 := rfl
  rw [hlen] at h
  exact ⟨h.1, h.2.2.1, h.2.2.2.2.1, h.2.2.2.2.2.1 (by norm_num)⟩

/-- `run_jobs` reached the final report and pushed it ungated whenever
no exception escaped it. -/
theorem run_jobs_not_raised (events : List JobEvent) (fe : ℚ)
    (s0 : MonitorState) (rl0 : RateLimiter)
    (h : (run_jobs events fe s0 rl0).raised = false) :
    (run_jobs events fe s0 rl0).finalAttempted = true ∧
    ∃ rep, (run_jobs events fe s0 rl0).reports.getLast? = some rep ∧
      rep.gated = false ∧
      rep.status = (run_jobs events fe s0 rl0).state.status := by
  revert h
  simp only [run_jobs]
  cases hek : (runJobsLoop events.length events { s0 with status := .RUNNING }
      rl0).exitKind
  · cases hst : get_stats_str _ events.length with
    | ok body =>
      intro _
      exact ⟨rfl, ⟨_, List.getLast?_concat _, rfl, rfl⟩⟩
    | error err =>
      intro hcon
      simp at hcon
  · cases hst : get_stats_str _ events.length with
    | ok body =>
      intro _
      exact ⟨rfl, ⟨_, List.getLast?_concat _, rfl, rfl⟩⟩
    | error err =>
      intro hcon
      simp at hcon
  · intro hcon
    simp at hcon

/-- C8: on every run outcome — normal completion, interrupt, or an
unexpected failure caught at the outermost scope — the program reaches a
final `update_message(get_stats_str())` statement (line 126, or line 159
in the `except:` handler of `main`), and whenever that statement's body
computation does not itself raise, the last executed report is the
ungated final report carrying the run's final status. -/
theorem c8_final_report (events : List JobEvent) (fe : ℚ)
    (rl0 : RateLimiter) :
    (main_run events fe rl0).finalAttempted = true ∧
    ((main_run events fe rl0).raised = false →
      ∃ rep, (main_run events fe rl0).reports.getLast? = some rep ∧
        rep.gated = false ∧
        rep.status = (main_run events fe rl0).state.status) := by
  by_cases hr : (run_jobs events fe MonitorState.init rl0).raised = true
  · simp only [main_run, hr, if_true]
    cases hst : get_stats_str
        { (run_jobs events fe MonitorState.init rl0).state with
          status := .CRASHED } events.length with
    | ok body =>
      refine ⟨rfl, fun _ => ?_⟩
      exact ⟨_, List.getLast?_concat _, rfl, rfl⟩
    | error err =>
      refine ⟨rfl, fun hcon => ?_⟩
      simp at hcon
  · have hr' : (run_jobs events fe MonitorState.init rl0).raised = false := by
      simpa using hr
    have hnr := run_jobs_not_raised events fe MonitorState.init rl0 hr'
    simp only [main_run, hr', if_false]
    simp only [Bool.false_eq_true, if_false]
    exact ⟨hnr.1, fun _ => hnr.2⟩

/-- Witness for C8: a clean one-job run — no exception, and the last
report is the ungated final one with the run's final status. -/
theorem c8_final_report_witness :
    (main_run
        [JobEvent.finishes { returncode := 0, samples := [], elapsed := 1, now := 1 }]
        1 (RateLimiter.init 4)).finalAttempted = true ∧
    (∃ rep, (main_run
        [JobEvent.finishes { returncode := 0, samples := [], elapsed := 1, now := 1 }]
        1 (RateLimiter.init 4)).reports.getLast? = some rep ∧
      rep.gated = false ∧
      rep.status = (main_run
        [JobEvent.finishes { returncode := 0, samples := [], elapsed := 1, now := 1 }]
        1 (RateLimiter.init 4)).state.status) := by
  have h := c8_final_report
    [JobEvent.finishes { returncode := 0, samples := [], elapsed := 1, now := 1 }]
    1 (RateLimiter.init 4)
  refine ⟨h.1, h.2 ?_⟩
  norm_num [main_run, run_jobs, runJobsLoop, stepFinish, RateLimiter.call,
    RateLimiter.init, get_stats_str, pydiv, MonitorState.init,
    Bind.bind, Except.bind]

/-- C10: with an empty job list, `run_jobs` classifies the run
`COMPLETED`, but every `get_stats_str` computation divides by
`len(args) = 0` when computing the completed percentage, so the final
report raises `ZeroDivisionError`; `main`'s `except:` handler sets
`CRASHED`, its own report attempt raises again, the exception escapes
`main`, and `ping_user` never runs: the run fails while producing its
final report instead of finishing cleanly. -/
theorem c10_empty_job_list (fe : ℚ) (rl0 : RateLimiter) :
    (run_jobs [] fe MonitorState.init rl0).state.status = .COMPLETED ∧
    (run_jobs [] fe MonitorState.init rl0).raised = true ∧
    (main_run [] fe rl0).state.status = .CRASHED ∧
    (main_run [] fe rl0).raised = true ∧
    (main_run [] fe rl0).pinged = false ∧
    (main_run [] fe rl0).reports = [] ∧
    (∀ s : MonitorState, get_stats_str s 0 = .error .zeroDivisionError) := by
  have hst : ∀ s : MonitorState,
      get_stats_str s 0 = .error .zeroDivisionError := by
    intro s
    simp [get_stats_str, pydiv, Bind.bind, Except.bind]
  have hrun : (run_jobs [] fe MonitorState.init rl0).state.status =
        .COMPLETED ∧
      (run_jobs [] fe MonitorState.init rl0).raised = true := by
    constructor <;>
      simp [run_jobs, runJobsLoop, MonitorState.init, hst]
  refine ⟨hrun.1, hrun.2, ?_, ?_, ?_, ?_, hst⟩ <;>
    simp [main_run, hrun.2, hst, run_jobs, runJobsLoop, MonitorState.init]

end SlackJobMonitor
